import Mathlib

/-!
Verification of the GOcontroll module flashing tool (`src/main.rs`).

The Rust program is shallowly embedded:
* Rust strings are modelled as lists of ASCII byte values (`Str := List Nat`);
  all strings handled by the program are ASCII.
* Byte buffers (`[u8; 47]`, `[u8; 61]`) are modelled as `List Nat` whose
  entries are the byte values; machine-integer truncation is written
  explicitly with `% 256`.
* The SPI bus is modelled as an environment `SpiEnv` giving, for each
  successive transfer, either a transport error (`none`) or the bytes
  clocked in (`some f`, with `f i` the byte captured at index `i` of the
  receive buffer).
* Fallible operations (slice indexing, `unwrap`) return `Option`; a `none`
  that the program would `unwrap` is surfaced as a `panicked` outcome.
-/

namespace FlashModule

/-- ASCII string, as the list of its byte values. -/
abbrev Str := List Nat

/-- Byte buffer. -/
abbrev Buf := List Nat

/-- `usize::MAX` on the 64-bit target; used by `overwrite_module` as the
first-frame sentinel value of `firmware_line_check`. -/
def USIZE_MAX : Nat := 2 ^ 64 - 1

/-- `BOOTMESSAGE_LENGTH` (src/main.rs line 22). -/
def BOOTMESSAGE_LENGTH : Nat := 46

/-- `BOOTMESSAGE_LENGTH_CHECK` (src/main.rs line 23). -/
def BOOTMESSAGE_LENGTH_CHECK : Nat := 61

/-- 8-bit wrapping addition (`u8::wrapping_add`). -/
def wrapAdd (a b : Nat) : Nat := (a + b) % 256

/-- `calculate_checksum` (src/main.rs lines 718-724): 8-bit wrapping sum of
`message[0..length]`.  The source always calls it with `length` at most the
buffer length (the one fallible call site is guarded by an earlier indexing
panic, see `overwrite_module`). -/
def calculate_checksum (message : Buf) (length : Nat) : Nat :=
  (message.take length).foldl wrapAdd 0

/-- Rust's `str::split(sep)` on an ASCII string: splits at every occurrence
of `sep`; the result is always non-empty, and an empty input yields `[[]]`. -/
def splitOn (sep : Nat) : Str → List Str
  | [] => [[]]
  | c :: rest =>
    let r := splitOn sep rest
    if c = sep then [] :: r
    else
      match r with
      | h :: t => (c :: h) :: t
      | [] => [[c]]

/-- Rust's `slice::get(a..b)` / `str::get(a..b)`: `none` unless
`a ≤ b ≤ length`. -/
def sliceRange (s : Str) (a b : Nat) : Option Str :=
  if a ≤ b ∧ b ≤ s.length then some ((s.drop a).take (b - a)) else none

/-- Value of an ASCII hex digit. -/
def hexDigitVal (c : Nat) : Option Nat :=
  if 48 ≤ c ∧ c ≤ 57 then some (c - 48)
  else if 97 ≤ c ∧ c ≤ 102 then some (c - 87)
  else if 65 ≤ c ∧ c ≤ 70 then some (c - 55)
  else none

/-- Value of an ASCII decimal digit. -/
def decDigitVal (c : Nat) : Option Nat :=
  if 48 ≤ c ∧ c ≤ 57 then some (c - 48) else none

/-- The digit-accumulation loop of Rust's integer `from_str` /
`from_str_radix`, starting from accumulator `a`; `none` on the first
non-digit. -/
def accumDigits (radix : Nat) (digitVal : Nat → Option Nat) :
    Str → Nat → Option Nat
  | [], a => some a
  | c :: s, a =>
    (digitVal c).bind (fun d => accumDigits radix digitVal s (a * radix + d))

/-- Strip the optional leading `+` sign Rust's unsigned `from_str` accepts
(ASCII 43). -/
def stripSign (s : Str) : Str :=
  if s.head? = some 43 then s.tail else s

/-- `u8::from_str_radix(s, 16)`: optional leading `+`, then one or more hex
digits, value at most 255. -/
def u8_from_str_radix16 (s : Str) : Option Nat :=
  let digits := stripSign s
  if digits.isEmpty then none
  else
    (accumDigits 16 hexDigitVal digits 0).bind
      (fun v => if v ≤ 255 then some v else none)

/-- `u8::from_str` (`str::parse::<u8>()`): optional leading `+`, then one or
more decimal digits, value at most 255. -/
def u8_parse (s : Str) : Option Nat :=
  let digits := stripSign s
  if digits.isEmpty then none
  else
    (accumDigits 10 decDigitVal digits 0).bind
      (fun v => if v ≤ 255 then some v else none)

/-- `u8::from_str_radix(lines[n].get(a..b).unwrap(), 16).unwrap()`:
`none` means one of the two `unwrap`s panics. -/
def parseHexAt (line : Str) (a b : Nat) : Option Nat :=
  (sliceRange line a b).bind u8_from_str_radix16

/-- Decimal representation of a natural number, as ASCII bytes
(what `format!("{}", n)` produces). -/
def decRep (n : Nat) : Str :=
  if h : n < 10 then [48 + n]
  else
    have : n / 10 < n := Nat.div_lt_self (by omega) (by omega)
    decRep (n / 10) ++ [48 + n % 10]

/-- Strict lexicographic order on byte slices, as `Bool` — the order Rust's
`PartialOrd for [u8]` implements (elementwise, a strict prefix is smaller). -/
def sliceLt : List Nat → List Nat → Bool
  | [], [] => false
  | [], _ :: _ => true
  | _ :: _, [] => false
  | a :: as, b :: bs =>
    if a < b then true else if b < a then false else sliceLt as bs

/-- `FirmwareVersion` (src/main.rs lines 47-50): a 7-byte identifier.
The Rust field is `[u8; 7]`; list length 7 is carried as a hypothesis where
a theorem needs it. -/
structure FirmwareVersion where
  firmware : List Nat
  deriving DecidableEq, Repr

namespace FirmwareVersion

/-- `FirmwareVersion::get_software` (src/main.rs lines 74-76):
`firmware[4..7]`. -/
def get_software (v : FirmwareVersion) : List Nat :=
  (v.firmware.drop 4).take 3

/-- `FirmwareVersion::get_hardware` (src/main.rs lines 79-81):
`firmware[0..4]`. -/
def get_hardware (v : FirmwareVersion) : List Nat :=
  v.firmware.take 4

/-- The seven hyphen-separated decimal components of
`FirmwareVersion::as_string` (src/main.rs lines 84-86). -/
def as_string (v : FirmwareVersion) : Str :=
  decRep (v.firmware.getD 0 0) ++ 45 ::
  (decRep (v.firmware.getD 1 0) ++ 45 ::
  (decRep (v.firmware.getD 2 0) ++ 45 ::
  (decRep (v.firmware.getD 3 0) ++ 45 ::
  (decRep (v.firmware.getD 4 0) ++ 45 ::
  (decRep (v.firmware.getD 5 0) ++ 45 ::
  decRep (v.firmware.getD 6 0))))))

/-- `FirmwareVersion::as_filename` (src/main.rs lines 89-91):
`as_string` followed by `.srec`. -/
def as_filename (v : FirmwareVersion) : Str :=
  as_string v ++ [46, 115, 114, 101, 99]

end FirmwareVersion

/-- The indexed assignment loop of `FirmwareVersion::from_filename`
(src/main.rs lines 59-66): for each parsed component, `firmware.get_mut(i)?`
then store; `none` models the `?` propagation when more than seven
components arrive, or a failed `parse::<u8>()`. -/
def from_filename_go : List Str → Nat → List Nat → Option (List Nat)
  | [], _, fw => some fw
  | num :: rest, i, fw =>
    if i < fw.length then
      match u8_parse num with
      | some v => from_filename_go rest (i + 1) (fw.set i v)
      | none => none
    else none

/-- `FirmwareVersion::from_filename` (src/main.rs lines 54-71). -/
def FirmwareVersion.from_filename (name : Str) : Option FirmwareVersion :=
  let fw0 : List Nat := List.replicate 7 0
  match (splitOn 46 name).head? with
  | some noExtension =>
      (from_filename_go (splitOn 45 noExtension) 0 fw0).map
        (fun fw => { firmware := fw })
  | none => some { firmware := fw0 }

/-- The sentinel software triple `(255,255,255)` ("no firmware installed"). -/
def sentinelSoftware : List Nat := [255, 255, 255]

/-- The body of the `reduce` closure in `Module::update_module`
(src/main.rs line 620): keep the accumulator unless the next candidate's
software is strictly above it. -/
def maxStep (acc q : Nat × List Nat) : Nat × List Nat :=
  if sliceLt acc.2 q.2 then q else acc

/-- The first filter of the selector chain (src/main.rs line 617): keep
entries whose hardware quadruple equals the module's. -/
def hwFilter (mfw : FirmwareVersion) (p : Nat × FirmwareVersion) : Bool :=
  p.2.get_hardware == mfw.get_hardware

/-- The second filter of the selector chain (src/main.rs line 618): keep
entries whose software is strictly above the module's (or the module's
software is the sentinel) and is itself not the sentinel. -/
def swFilter (mfw : FirmwareVersion) (p : Nat × FirmwareVersion) : Bool :=
  (sliceLt mfw.get_software p.2.get_software
      || mfw.get_software == sentinelSoftware)
    && p.2.get_software != sentinelSoftware

/-- The iterator chain of `Module::update_module` (src/main.rs lines
616-620): enumerate the firmware set, apply `hwFilter` and `swFilter`,
map each survivor to its index and software triple, then `reduce` with
`maxStep` to the (first) index of maximal software.  Returns the chosen
index, `none` when no candidate survives (the `Ok(Err(self))`
"no update available" outcome). -/
def selectUpdate (mfw : FirmwareVersion) (firmwares : List FirmwareVersion) :
    Option Nat :=
  let swOk := (firmwares.enum.filter (hwFilter mfw)).filter (swFilter mfw)
  match swOk.map (fun p => (p.1, p.2.get_software)) with
  | [] => none
  | x :: xs => some (xs.foldl maxStep x).1

/-- The candidate predicate of the update selector, as the claim states it:
matching hardware, software not the sentinel, software strictly above the
module's or module software equal to the sentinel. -/
def updateCandidate (mfw f : FirmwareVersion) : Prop :=
  f.get_hardware = mfw.get_hardware ∧
  f.get_software ≠ sentinelSoftware ∧
  (sliceLt mfw.get_software f.get_software = true ∨
   mfw.get_software = sentinelSoftware)

/-- `ControllerTypes` (src/main.rs lines 121-127), with its `#[repr(usize)]`
discriminants 9, 5, 3. -/
inductive ControllerTypes
  | ModulineIV
  | ModulineMini
  | ModulineDisplay
  deriving DecidableEq, Repr

/-- The `usize` discriminant (`controller as u8` in the source). -/
def ControllerTypes.discriminant : ControllerTypes → Nat
  | .ModulineIV => 9
  | .ModulineMini => 5
  | .ModulineDisplay => 3

/-- Number of module slots of each controller variant (8, 4 or 2). -/
def ControllerTypes.slotCount : ControllerTypes → Nat
  | .ModulineIV => 8
  | .ModulineMini => 4
  | .ModulineDisplay => 2

/-- The slot guard on the `update <slot>` code path (src/main.rs line 997):
`slot < controller as u8 || slot >= 1`, for a parsed `u8` slot. -/
def updateSlotGuard (controller : ControllerTypes) (slot : Nat) : Bool :=
  slot < controller.discriminant || slot ≥ 1

/-- Modelled from the spec: the corrected range check the spec directs for
the `update <slot>` code path ("it was probably meant as `1 <= slot <= N`"),
which the source does not implement. -/
def correctedSlotGuard (controller : ControllerTypes) (slot : Nat) : Bool :=
  1 ≤ slot && slot ≤ controller.slotCount

/-- Result of one spawned per-module upload task in `update_all_modules`
(the value of `Module::update_module`): `updated` is `Ok(Ok(module))`,
`noUpdate` is `Ok(Err(module))`, the two error constructors are
`Err(UploadError::…)`. -/
inductive UpdateTaskResult
  | updated (slot : Nat) (fw : FirmwareVersion)
  | noUpdate (slot : Nat)
  | corruptedSlot (slot : Nat)
  | untouchedSlot (slot : Nat)
  deriving DecidableEq, Repr

/-- The result-collection phase of `update_all_modules` (src/main.rs lines
833-880): one task per module is spawned (`taskResults` lists what those
tasks return, one entry per live module); the join loop then runs
`new_modules.len()` times — with `new_modules` still the freshly created
empty vector — pushing that many joined results into `upload_results`;
finally each collected result is matched, successful updates are pushed
into `new_modules` and a corrupted-firmware flag is tracked.  Returns the
`new_modules` list handed to `save_modules` and the flag. -/
def update_all_collect (taskResults : List UpdateTaskResult) :
    List UpdateTaskResult × Bool :=
  let new_modules : List UpdateTaskResult := []
  let upload_results := taskResults.take new_modules.length
  upload_results.foldl
    (fun acc r =>
      match r with
      | .updated s f => (acc.1 ++ [.updated s f], acc.2)
      | .corruptedSlot _ => (acc.1, true)
      | _ => acc)
    (new_modules, false)

/-! ## The upload engine (`Module::overwrite_module`, src/main.rs 422-610) -/

/-- The SPI environment: transfer number `n` (counting every
`spidev.transfer`, write-only ones included) either fails (`none`,
a transport error) or clocks byte `f i` into index `i` of the receive
buffer. -/
abbrev SpiEnv := Nat → Option (Nat → Nat)

/-- Checked buffer write, `buf[i] = v`: `none` models the Rust
index-out-of-bounds panic. -/
def setChecked (buf : Buf) (i v : Nat) : Option Buf :=
  if i < buf.length then some (buf.set i v) else none

/-- The acknowledgement validity test the engine applies to a received
short frame (src/main.rs lines 498-500 and 552-554):
checksum over bytes `0..45` matches byte 45, the big-endian `u16` at bytes
6..8 equals the check cursor, and byte 8 equals 1. -/
def ackOk (rx : Buf) (check : Nat) : Bool :=
  rx.getD (BOOTMESSAGE_LENGTH - 1) 0
      == calculate_checksum rx (BOOTMESSAGE_LENGTH - 1)
    && check == rx.getD 6 0 * 256 + rx.getD 7 0
    && rx.getD 8 0 == 1

/-- Materialize the bytes a successful transfer captures into an `n`-byte
receive buffer. -/
def captureRx (n : Nat) (f : Nat → Nat) : Buf :=
  (List.range n).map f

/-- Build the short status-probe frame (opcode 49) in the given 47-byte
transmit buffer: bytes 0,1,2 then the checksum at byte 45
(src/main.rs lines 492-495). -/
def buildStatusFrame (tx : Buf) : Buf :=
  let t := ((tx.set 0 49).set 1 (BOOTMESSAGE_LENGTH - 1)).set 2 49
  t.set (BOOTMESSAGE_LENGTH - 1) (calculate_checksum t (BOOTMESSAGE_LENGTH - 1))

/-- Build the long-frame probe (opcode 49) in the 61-byte escape buffer
(src/main.rs lines 563-566): same byte positions as a short frame. -/
def buildEscapeFrame (tx : Buf) : Buf :=
  let t := ((tx.set 0 49).set 1 (BOOTMESSAGE_LENGTH - 1)).set 2 49
  t.set (BOOTMESSAGE_LENGTH - 1) (calculate_checksum t (BOOTMESSAGE_LENGTH - 1))

/-- Build the cancel frame (opcode 19) of `Module::cancel_firmware_upload`
(src/main.rs lines 636-642). -/
def buildCancelFrame (tx : Buf) : Buf :=
  let t := ((tx.set 0 19).set 1 (BOOTMESSAGE_LENGTH - 1)).set 2 19
  t.set (BOOTMESSAGE_LENGTH - 1) (calculate_checksum t (BOOTMESSAGE_LENGTH - 1))

/-- The identity-request frame of `Module::get_module_info`
(src/main.rs lines 336-339), built in a zeroed 47-byte buffer. -/
def identityFrame : Buf :=
  let tx := List.replicate (BOOTMESSAGE_LENGTH + 1) 0
  let t := ((tx.set 0 9).set 1 (BOOTMESSAGE_LENGTH - 1)).set 2 9
  t.set (BOOTMESSAGE_LENGTH - 1) (calculate_checksum t (BOOTMESSAGE_LENGTH - 1))

/-- The payload-copy loop of the data frame (src/main.rs lines 532-538):
starting at `message_pointer = mp`, write hex byte pairs of the record into
the transmit buffer at `send_buffer_pointer = sbp`; `k` counts the
remaining iterations of the `while` loop, after which the one extra
trailing write happens.  `none` models a panic (failed hex parse / slice,
or an out-of-bounds buffer write). -/
def payloadWrites (line : Str) (mp sbp : Nat) (tx : Buf) : Nat → Option Buf
  | 0 => (parseHexAt line mp (mp + 2)).bind (fun b => setChecked tx sbp b)
  | k + 1 =>
    (parseHexAt line mp (mp + 2)).bind (fun b =>
      (setChecked tx sbp b).bind (fun tx2 =>
        payloadWrites line (mp + 2) (sbp + 1) tx2 k))

/-- The whole payload loop for a record with (wrapped `u8`) declared length
`ll`: the `while` bound is `((line_length * 2) + 2) as usize` computed in
`u8` arithmetic, `message_pointer` starts at 2 and `send_buffer_pointer`
at 9; the bound and the pointer are always even, so the `while` body runs
`(stop - 2) / 2` times. -/
def payloadLoop (line : Str) (ll : Nat) (tx : Buf) : Option Buf :=
  let stop := (ll * 2 % 256 + 2) % 256
  payloadWrites line 2 9 tx ((stop - 2) / 2)

/-- The loop state of `overwrite_module`: the two cursors, the current
`message_type`, the error counter, the two persistent transmit buffers and
the persistent escape receive buffer, the number of SPI transfers performed
so far, and the trace of every frame handed to `spidev.transfer`. -/
structure St where
  lineNumber : Nat
  lineCheck : Nat
  messageType : Nat
  errorCount : Nat
  txBuf : Buf
  txBufEscape : Buf
  rxBufEscape : Buf
  idx : Nat
  sent : List Buf
  deriving Repr

/-- Result of one iteration of the upload `while` loop. -/
inductive StepRes
  | next (s : St)
  | corrupted (s : St)
  | panik (s : St)
  deriving Repr

/-- The state carried by a step result. -/
def StepRes.st : StepRes → St
  | .next s => s
  | .corrupted s => s
  | .panik s => s

/-- Whether a step ended the upload with `FirmwareCorrupted`. -/
def StepRes.isCorrupted : StepRes → Bool
  | .corrupted _ => true
  | _ => false

/-- The header of an opcode-39 data frame (src/main.rs lines 520-530):
opcode bytes 0,1,2, then the line number (high byte truncated to `u8`) at
bytes 6,7 and the record type at byte 8, written into the persistent
transmit buffer. -/
def dataHeader (tx : Buf) (lineNumber mt : Nat) : Buf :=
  let tx0 := ((tx.set 0 39).set 1 (BOOTMESSAGE_LENGTH - 1)).set 2 39
  ((tx0.set 6 (lineNumber / 256 % 256)).set 7 (lineNumber % 256)).set 8 mt

/-- The send-data part of one loop iteration (src/main.rs lines 519-605):
build the opcode-39 frame for `lines[line_number]`, exchange it, then
handle the reply: first-frame discard, valid acknowledgement (with the
parity swap, normal advance, and the terminal long-frame probe), invalid
acknowledgement, or transport error.  `s.messageType` has already been set
to the parsed `mt` of the current record. -/
def dataPhase (env : SpiEnv) (s : St) (mt ll : Nat) (line : Str) : StepRes :=
  match payloadLoop line ll (dataHeader s.txBuf s.lineNumber mt) with
  | none => .panik s
  | some tx2 =>
    let tx3 := tx2.set (BOOTMESSAGE_LENGTH - 1)
        (calculate_checksum tx2 (BOOTMESSAGE_LENGTH - 1))
    let s1 := { s with txBuf := tx3, sent := s.sent ++ [tx3], idx := s.idx + 1 }
    match env s.idx with
    | none =>
      let s2 := { s1 with
        lineNumber := s.lineCheck, lineCheck := s.lineNumber,
        messageType := 0, errorCount := s.errorCount + 1 }
      if s2.errorCount > 10 then .corrupted s2 else .next s2
    | some rxf =>
      let rx := captureRx (BOOTMESSAGE_LENGTH + 1) rxf
      if s.lineCheck == USIZE_MAX then
        .next { s1 with lineNumber := s.lineNumber + 1, lineCheck := 0 }
      else if ackOk rx s.lineCheck then
        -- odd error count: swap the cursors; even: advance the check
        -- cursor to the line just confirmed (src/main.rs lines 555-559)
        let cursors :=
          if s.errorCount % 2 == 1 then (s.lineCheck, s.lineNumber)
          else (s.lineNumber, s.lineNumber)
        let ln1 := cursors.1
        let lc1 := cursors.2
        if mt == 7 then
          let txE := buildEscapeFrame s.txBufEscape
          let s2 := { s1 with
            lineNumber := ln1, lineCheck := lc1,
            txBufEscape := txE, sent := s1.sent ++ [txE], idx := s1.idx + 1 }
          let rxE :=
            match env s1.idx with
            | some rf => captureRx BOOTMESSAGE_LENGTH_CHECK rf
            | none => s.rxBufEscape
          let s3 := { s2 with rxBufEscape := rxE }
          let r1 := rxE.getD 1 0
          if r1 ≥ BOOTMESSAGE_LENGTH_CHECK then .panik s3
          else if rxE.getD r1 0 == calculate_checksum rxE r1
              && rxE.getD 6 0 == 20 then
            .next s3
          else
            .next { s3 with messageType := 0 }
        else
          .next { s1 with lineNumber := ln1 + 1, lineCheck := lc1,
                          errorCount := 0 }
      else
        let s2 := { s1 with
          lineNumber := s.lineCheck, lineCheck := s.lineNumber,
          messageType := 0, errorCount := s.errorCount + 1 }
        if s2.errorCount > 10 then .corrupted s2 else .next s2

/-- One iteration of the upload `while` loop body (src/main.rs lines
484-605), assuming the loop condition `message_type != 7` held: parse the
type nibble and length byte of the current record, run the terminal guard
(status probe) when the terminal record is reached before its predecessor
is acknowledged, then fall through to the data phase. -/
def loopStep (env : SpiEnv) (lines : List Str) (s : St) : StepRes :=
  match lines.get? s.lineNumber with
  | none => .panik s
  | some line =>
    match parseHexAt line 1 2 with
    | none => .panik s
    | some mt =>
      match parseHexAt line 2 4 with
      | none => .panik s
      | some ll =>
        let s0 := { s with messageType := mt }
        if mt == 7 && decide (s.lineCheck ≠ s.lineNumber) then
          let tx1 := buildStatusFrame s.txBuf
          let s1 := { s0 with
            txBuf := tx1, sent := s.sent ++ [tx1], idx := s.idx + 1 }
          match env s.idx with
          | some rxf =>
            let rx := captureRx (BOOTMESSAGE_LENGTH + 1) rxf
            if ackOk rx s.lineCheck then
              dataPhase env s1 mt ll line
            else
              .next { s1 with
                lineNumber := s.lineCheck, lineCheck := s.lineNumber,
                messageType := 0, errorCount := s.errorCount + 1 }
          | none =>
            .next { s1 with
              lineNumber := s.lineCheck, lineCheck := s.lineNumber,
              messageType := 0, errorCount := s.errorCount + 1 }
        else
          dataPhase env s0 mt ll line

/-- How the upload loop ended. -/
inductive LoopRes
  | okDone
  | corruptedExit
  | panikExit
  deriving DecidableEq, Repr

/-- Run the upload `while` loop for at most `fuel` iterations; `none` means
the fuel ran out with the loop still going. -/
def runLoop (env : SpiEnv) (lines : List Str) :
    Nat → St → St × Option LoopRes
  | 0, s => (s, none)
  | fuel + 1, s =>
    if s.messageType == 7 then (s, some .okDone)
    else
      match loopStep env lines s with
      | .next s2 => runLoop env lines fuel s2
      | .corrupted s2 => (s2, some .corruptedExit)
      | .panik s2 => (s2, some .panikExit)

/-- Outcome of `overwrite_module`. -/
inductive UploadResult
  | ok
  | firmwareUntouched (slot : Nat)
  | firmwareCorrupted (slot : Nat)
  | panicked
  | outOfFuel
  deriving DecidableEq, Repr

/-- The erase+commit frame (opcode 29) of the pre-upload phase
(src/main.rs lines 454-462): opcode bytes, the new software triple at
bytes 6,7,8, and the checksum, in a zeroed 47-byte buffer. -/
def eraseFrame (new_firmware : FirmwareVersion) : Buf :=
  let tx0 : Buf := List.replicate (BOOTMESSAGE_LENGTH + 1) 0
  let sw := new_firmware.get_software
  let t := (((((tx0.set 0 29).set 1 (BOOTMESSAGE_LENGTH - 1)).set 2
      29).set 6 (sw.getD 0 0)).set 7 (sw.getD 1 0)).set 8 (sw.getD 2 0)
  t.set (BOOTMESSAGE_LENGTH - 1) (calculate_checksum t (BOOTMESSAGE_LENGTH - 1))

/-- The loop state right after the erase transfer succeeded
(src/main.rs lines 440-447): cursors `(0, usize::MAX)`, no errors, the
transmit buffer still holding the erase frame, zeroed escape buffers, one
transfer performed. -/
def initialState (new_firmware : FirmwareVersion) : St := {
  lineNumber := 0, lineCheck := USIZE_MAX, messageType := 0,
  errorCount := 0, txBuf := eraseFrame new_firmware,
  txBufEscape := List.replicate BOOTMESSAGE_LENGTH_CHECK 0,
  rxBufEscape := List.replicate BOOTMESSAGE_LENGTH_CHECK 0,
  idx := 1, sent := [eraseFrame new_firmware] }

/-- `Module::overwrite_module` (src/main.rs lines 422-610).
`file` is the result of reading `firmware/<version>.srec` (`none`: I/O
error).  Returns the outcome together with the trace of every frame handed
to `spidev.transfer`, in order. -/
def overwrite_module (env : SpiEnv) (file : Option Str) (slot : Nat)
    (new_firmware : FirmwareVersion) (fuel : Nat) :
    UploadResult × List Buf :=
  match file with
  | none => (.firmwareUntouched slot, [])
  | some content =>
    let lines := splitOn 10 content
    if lines.length ≤ 1 then (.firmwareUntouched slot, [])
    else
      match env 0 with
      | none => (.firmwareUntouched slot, [eraseFrame new_firmware])
      | some _ =>
        match runLoop env lines fuel (initialState new_firmware) with
        | (s, some .okDone) =>
          let txc := buildCancelFrame s.txBuf
          (.ok, s.sent ++ [txc])
        | (s, some .corruptedExit) => (.firmwareCorrupted slot, s.sent)
        | (s, some .panikExit) => (.panicked, s.sent)
        | (s, none) => (.outOfFuel, s.sent)

/-! ## Concrete scenario data for the end-to-end claims -/

/-- ASCII bytes of the S-record `"S1020000"` (type 1, declared length 2). -/
def recD0 : Str := [83, 49, 48, 50, 48, 48, 48, 48]

/-- ASCII bytes of `"S1020101"`. -/
def recD1 : Str := [83, 49, 48, 50, 48, 49, 48, 49]

/-- ASCII bytes of `"S1020202"`. -/
def recD2 : Str := [83, 49, 48, 50, 48, 50, 48, 50]

/-- ASCII bytes of `"S1020303"`. -/
def recD3 : Str := [83, 49, 48, 50, 48, 51, 48, 51]

/-- ASCII bytes of `"S1020404"`. -/
def recD4 : Str := [83, 49, 48, 50, 48, 52, 48, 52]

/-- ASCII bytes of the terminal record `"S7020000"` (type 7). -/
def recT : Str := [83, 55, 48, 50, 48, 48, 48, 48]

/-- A reply whose bytes form a valid acknowledgement of line `c`
(for `c < 65536`): big-endian `c` at bytes 6..8, a 1 at byte 8, and the
matching checksum at byte 45. -/
def ackBytes (c : Nat) : Nat → Nat := fun i =>
  if i = 6 then c / 256
  else if i = 7 then c % 256
  else if i = 8 then 1
  else if i = 45 then (c / 256 + c % 256 + 1) % 256
  else 0

/-- Like `ackBytes`, but with a corrupted checksum byte. -/
def corruptAckBytes (c : Nat) : Nat → Nat := fun i =>
  if i = 45 then 99 else ackBytes c i

/-- An all-zero reply: its checksum is consistent, but byte 8 is not 1, so
it is never a valid acknowledgement. -/
def zeroBytes : Nat → Nat := fun _ => 0

/-- A long-frame probe reply from the running firmware: declared length 45,
marker 20 at byte 6, matching checksum. -/
def fwRespBytes : Nat → Nat := fun i =>
  if i = 1 then 45 else if i = 6 then 20 else if i = 45 then 65 else 0

/-- Build an environment from a per-transfer list; transfers past the end
of the list succeed with an all-zero reply. -/
def envOfList (l : List (Option (Nat → Nat))) : SpiEnv :=
  fun i => l.getD i (some zeroBytes)

/-- The firmware version being uploaded in the scenarios
(`20-10-1-5-0-0-1`). -/
def fwNew : FirmwareVersion := { firmware := [20, 10, 1, 5, 0, 0, 1] }

/-- Scenario file for claim C1: records `[data0, data1, data2, terminal]`,
newline-separated. -/
def fileC1 : Str := recD0 ++ 10 :: (recD1 ++ 10 :: (recD2 ++ 10 :: recT))

/-- Environment for claim C1: the erase transfer succeeds, every short
reply is a valid acknowledgement of the line the engine is checking, and
the long-frame probe reply carries the firmware marker 20. -/
def envC1 : SpiEnv := envOfList
  [some zeroBytes, some zeroBytes, some (ackBytes 0), some (ackBytes 1),
   some (ackBytes 2), some (ackBytes 2), some fwRespBytes, some zeroBytes]

/-- Scenario file for claim C2: records
`[data0, data1, data2, data3, data4, terminal]`. -/
def fileC2 : Str :=
  recD0 ++ 10 :: (recD1 ++ 10 :: (recD2 ++ 10 ::
    (recD3 ++ 10 :: (recD4 ++ 10 :: recT))))

/-- Environment for claim C2: identical to the happy path except that the
acknowledgement of line 2 (carried by the reply to the fourth transfer, the
data frame for line 3) arrives with a corrupted checksum. -/
def envC2 : SpiEnv := envOfList
  [some zeroBytes, some zeroBytes, some (ackBytes 0), some (ackBytes 1),
   some (corruptAckBytes 2), some (ackBytes 3), some (ackBytes 2),
   some (ackBytes 4), some (ackBytes 4), some fwRespBytes, some zeroBytes]

/-- Scenario file for claim C3: a data record followed by two terminal
records (both type 7), so the terminal guard is reachable while another
record still follows the guarded one. -/
def fileC3 : Str := recD0 ++ 10 :: (recT ++ 10 :: recT)

/-- Environment for claim C3's counterexample: transfers 2..12 return junk
(eleven bad replies, alternating between the terminal-guard status probe
and the data frame for line 0), then three valid acknowledgements and the
firmware long-frame reply let the upload finish. -/
def envC3 : SpiEnv := envOfList
  [some zeroBytes, some zeroBytes, some zeroBytes, some zeroBytes,
   some zeroBytes, some zeroBytes, some zeroBytes, some zeroBytes,
   some zeroBytes, some zeroBytes, some zeroBytes, some zeroBytes,
   some zeroBytes,
   some (ackBytes 1), some (ackBytes 0), some (ackBytes 0),
   some fwRespBytes]

/-- The loop state used by claim C3's witness: the engine is about to send
line 0 with the check cursor at 1 and ten errors already accumulated. -/
def stC3 : St := { initialState fwNew with lineCheck := 1, errorCount := 10 }

/-! ## Claim theorems -/

/-- Claim C1: happy path of the upload engine.  For a firmware file with
records `[data0, data1, data2, terminal]` and an environment in which every
reply is a valid acknowledgement, `overwrite_module` sends exactly one
opcode-29 erase frame first, then each record exactly once as an opcode-39
frame in index order (the reply to the very first opcode-39 exchange is
discarded — after one loop iteration `line_number` is 1 and `line_check`
is 0 with no error counted — regardless of its content), then one short
opcode-49 status probe before the terminal record, then one 61-byte
long-frame probe whose reply has byte 6 equal to 20, and returns `Ok`. -/
theorem claim_C1 :
    (overwrite_module envC1 (some fileC1) 1 fwNew 10).1 = .ok
    ∧ ((overwrite_module envC1 (some fileC1) 1 fwNew 10).2.map
        (fun f => f.getD 0 0)) = [29, 39, 39, 39, 49, 39, 49, 19]
    ∧ (((overwrite_module envC1 (some fileC1) 1 fwNew 10).2.filter
        (fun f => f.getD 0 0 == 39)).map
        (fun f => f.getD 6 0 * 256 + f.getD 7 0)) = [0, 1, 2, 3]
    ∧ ((overwrite_module envC1 (some fileC1) 1 fwNew 10).2.map
        (fun f => f.length)) = [47, 47, 47, 47, 47, 47, 61, 47]
    ∧ (runLoop envC1 (splitOn 10 fileC1) 1 (initialState fwNew)).1.lineNumber
        = 1
    ∧ (runLoop envC1 (splitOn 10 fileC1) 1 (initialState fwNew)).1.lineCheck
        = 0
    ∧ (runLoop envC1 (splitOn 10 fileC1) 1 (initialState fwNew)).1.errorCount
        = 0
    ∧ (runLoop envC1 (splitOn 10 fileC1) 10
        (initialState fwNew)).1.rxBufEscape.getD 6 0 = 20 := by
  decide

/-- Claim C2: single-error recovery by cursor swap.  With every reply a
valid acknowledgement except the acknowledgement of line 2, which arrives
once with a corrupted checksum, the engine swaps `line_number` and
`line_check` (before the bad reply the cursors are `(3, 2)` with no errors;
after it they are `(2, 3)` with error count 1), re-sends line 2 exactly
once — the opcode-39 frames carry line numbers `[0,1,2,3,2,4,5]`, one
retry in total — and the upload completes successfully. -/
theorem claim_C2 :
    (overwrite_module envC2 (some fileC2) 1 fwNew 15).1 = .ok
    ∧ (((overwrite_module envC2 (some fileC2) 1 fwNew 15).2.filter
        (fun f => f.getD 0 0 == 39)).map
        (fun f => f.getD 6 0 * 256 + f.getD 7 0)) = [0, 1, 2, 3, 2, 4, 5]
    ∧ (runLoop envC2 (splitOn 10 fileC2) 3 (initialState fwNew)).1.lineNumber
        = 3
    ∧ (runLoop envC2 (splitOn 10 fileC2) 3 (initialState fwNew)).1.lineCheck
        = 2
    ∧ (runLoop envC2 (splitOn 10 fileC2) 3 (initialState fwNew)).1.errorCount
        = 0
    ∧ (runLoop envC2 (splitOn 10 fileC2) 4 (initialState fwNew)).1.lineNumber
        = 2
    ∧ (runLoop envC2 (splitOn 10 fileC2) 4 (initialState fwNew)).1.lineCheck
        = 3
    ∧ (runLoop envC2 (splitOn 10 fileC2) 4 (initialState fwNew)).1.errorCount
        = 1 := by
  decide

/-- In `dataPhase`, when the data-frame exchange fails (transport error, or
a reply that is not a valid acknowledgement while the check cursor is past
the first-frame sentinel) and the error counter is already at least 10, the
incremented counter exceeds the budget and the step exits with
`FirmwareCorrupted`. -/
theorem dataPhase_budget (env : SpiEnv) (s : St) (mt ll : Nat) (line : Str)
    (hpay : (payloadLoop line ll (dataHeader s.txBuf s.lineNumber mt)).isSome)
    (hfail : env s.idx = none ∨
      ∃ rxf, env s.idx = some rxf ∧ s.lineCheck ≠ USIZE_MAX ∧
        ackOk (captureRx (BOOTMESSAGE_LENGTH + 1) rxf) s.lineCheck = false)
    (herr : 10 ≤ s.errorCount) :
    ∃ s2, dataPhase env s mt ll line = .corrupted s2 ∧
      s2.errorCount = s.errorCount + 1 := by
  obtain ⟨tx2, htx2⟩ := Option.isSome_iff_exists.mp hpay
  have hgt : s.errorCount + 1 > 10 := by omega
  rcases hfail with henv | ⟨rxf, henv, hneq, hack⟩
  · simp only [dataPhase, htx2, henv, hgt, if_true]
    exact ⟨_, rfl, rfl⟩
  · have hbeq : (s.lineCheck == USIZE_MAX) = false := by
      simp [hneq]
    simp only [dataPhase, htx2, henv, hbeq, hack, Bool.false_eq_true,
      if_false, hgt, if_true]
    exact ⟨_, rfl, rfl⟩

/-- Claim C3 (amended): the retry budget is enforced at data-frame exchange
failures.  Whenever the engine is in the data phase (the current record is
not a terminal record awaiting its guard), the data-frame exchange fails —
by transport error or by an invalid reply past the first-frame sentinel —
and the accumulated error counter is already at least 10, the loop exits
immediately with `FirmwareCorrupted` and the counter one above the budget.
(The terminal-guard probe increments the counter without this check, and
the terminal long-frame probe does not touch it; see the counterexample.) -/
theorem claim_C3_theorem (env : SpiEnv) (lines : List Str) (s : St)
    (line : Str) (mt ll : Nat)
    (hline : lines.get? s.lineNumber = some line)
    (hmt : parseHexAt line 1 2 = some mt)
    (hll : parseHexAt line 2 4 = some ll)
    (hng : ¬(mt = 7 ∧ s.lineCheck ≠ s.lineNumber))
    (hpay : (payloadLoop line ll (dataHeader s.txBuf s.lineNumber mt)).isSome)
    (hfail : env s.idx = none ∨
      ∃ rxf, env s.idx = some rxf ∧ s.lineCheck ≠ USIZE_MAX ∧
        ackOk (captureRx (BOOTMESSAGE_LENGTH + 1) rxf) s.lineCheck = false)
    (herr : 10 ≤ s.errorCount)
    (hs7 : s.messageType ≠ 7) :
    ∃ s2, loopStep env lines s = .corrupted s2 ∧
      s2.errorCount = s.errorCount + 1 ∧
      ∀ fuel, runLoop env lines (fuel + 1) s = (s2, some .corruptedExit) := by
  have hg : (mt == 7 && decide (s.lineCheck ≠ s.lineNumber)) = false := by
    by_cases h7 : mt = 7
    · have hne : ¬ s.lineCheck ≠ s.lineNumber := fun hne => hng ⟨h7, hne⟩
      simp [hne]
    · simp [h7]
  obtain ⟨s2, hstep, hcnt⟩ :=
    dataPhase_budget env { s with messageType := mt } mt ll line hpay hfail herr
  have hloop : loopStep env lines s = .corrupted s2 := by
    simp only [loopStep, hline, hmt, hll, hg, Bool.false_eq_true, if_false]
    exact hstep
  refine ⟨s2, hloop, hcnt, fun fuel => ?_⟩
  have hsb : (s.messageType == 7) = false := by simp [hs7]
  simp only [runLoop, hsb, Bool.false_eq_true, if_false, hloop]

/-- Claim C3, counterexample to the claim as stated: in the execution
driven by `envC3` on `fileC3`, after twelve loop iterations the error
counter stands at 11 — it exceeded 10 through the unchecked increment of
the terminal-guard probe — the loop is still running, and the upload
finishes with `Ok` rather than `FirmwareCorrupted`. -/
theorem claim_C3_counterexample :
    (runLoop envC3 (splitOn 10 fileC3) 12 (initialState fwNew)).1.errorCount
      = 11
    ∧ (runLoop envC3 (splitOn 10 fileC3) 12 (initialState fwNew)).2 = none
    ∧ (overwrite_module envC3 (some fileC3) 1 fwNew 30).1 = .ok := by
  decide

/-- Claim C3, witness: with ten errors accumulated and a transport error on
the next data-frame exchange, the step exits with `FirmwareCorrupted` and
the counter at 11. -/
theorem claim_C3_witness :
    (loopStep (fun _ => none) (splitOn 10 fileC3) stC3).isCorrupted = true
    ∧ (loopStep (fun _ => none) (splitOn 10 fileC3) stC3).st.errorCount
        = 11 := by
  obtain ⟨s2, h1, h2, _⟩ :=
    claim_C3_theorem (fun _ => none) (splitOn 10 fileC3) stC3 recD0 1 2
      (by decide) (by decide) (by decide) (by decide) (by decide)
      (Or.inl rfl) (by decide) (by decide)
  rw [h1]
  refine ⟨rfl, ?_⟩
  simp only [StepRes.st]
  rw [h2]
  decide

/-- Environment for claim C10: the erase transfer succeeds and the very
first opcode-39 exchange fails with a transport error. -/
def envC10 : SpiEnv := envOfList [some zeroBytes, none]

/-- Claim C10: first-frame transport-error safety.  If the very first
opcode-39 exchange fails with a transport error — while `line_check` still
holds the `usize::MAX` first-frame sentinel — the error handler swaps the
cursors, so after one iteration `line_number` is `usize::MAX` (and
`line_check` 0, one error counted); the next iteration's record lookup
`lines[line_number]` is then out of bounds, and the loop ends in the
indexing panic: the first-frame discard applies only when the exchange
succeeds. -/
theorem claim_C10 :
    (runLoop envC10 (splitOn 10 fileC1) 1 (initialState fwNew)).1.lineNumber
      = USIZE_MAX
    ∧ (runLoop envC10 (splitOn 10 fileC1) 1 (initialState fwNew)).1.lineCheck
      = 0
    ∧ (runLoop envC10 (splitOn 10 fileC1) 1 (initialState fwNew)).1.errorCount
      = 1
    ∧ (splitOn 10 fileC1).get? USIZE_MAX = none
    ∧ (runLoop envC10 (splitOn 10 fileC1) 2 (initialState fwNew)).2
      = some .panikExit
    ∧ (overwrite_module envC10 (some fileC1) 1 fwNew 5).1 = .panicked := by
  decide

/-- Reading a buffer away from a written index. -/
theorem getD_set_ne (l : Buf) (i j v : Nat) (h : i ≠ j) :
    (l.set i v).getD j 0 = l.getD j 0 := by
  simp [List.getD_eq_getD_get?, List.getElem?_set_ne h]

/-- Reading a buffer at a written index. -/
theorem getD_set_self (l : Buf) (i v : Nat) (h : i < l.length) :
    (l.set i v).getD i 0 = v := by
  simp [List.getD_eq_getD_get?, List.getElem?_set_eq_of_lt v h]

/-- Claim C4 (divergence): the result-collection loop of
`update_all_modules` runs `new_modules.len()` times while `new_modules` is
still empty, so no spawned upload task is joined: whatever the per-module
tasks return — in particular for two live modules whose uploads both
succeed — the list of updated modules handed to `save_modules` is empty
and the corrupted flag stays unset. -/
theorem claim_C4_theorem :
    update_all_collect [.updated 1 fwNew, .updated 2 fwNew] = ([], false)
    ∧ ∀ taskResults : List UpdateTaskResult,
        update_all_collect taskResults = ([], false) := by
  exact ⟨rfl, fun _ => rfl⟩

/-- Claim C5 (divergence): the guard `slot < controller as u8 || slot >= 1`
on the `update <slot>` code path is true for every unsigned slot value and
every controller variant, so no slot is ever rejected; in particular slot
200 on the 8-slot Moduline IV passes the source's guard although the
corrected range check `1 <= slot <= N` the spec directs rejects it. -/
theorem claim_C5_theorem :
    (∀ controller slot, updateSlotGuard controller slot = true)
    ∧ updateSlotGuard .ModulineIV 200 = true
    ∧ correctedSlotGuard .ModulineIV 200 = false := by
  refine ⟨?_, rfl, rfl⟩
  intro c slot
  cases c <;> simp [updateSlotGuard, ControllerTypes.discriminant] <;> omega

/-- The erase+commit frame carries opcode 29 at byte 0, for every target
firmware version. -/
theorem eraseFrame_getD_zero (fw : FirmwareVersion) :
    (eraseFrame fw).getD 0 0 = 29 := by
  simp only [eraseFrame]
  rw [getD_set_ne _ (BOOTMESSAGE_LENGTH - 1) 0 _ (by decide),
    getD_set_ne _ 8 0 _ (by decide),
    getD_set_ne _ 7 0 _ (by decide), getD_set_ne _ 6 0 _ (by decide),
    getD_set_ne _ 2 0 _ (by decide), getD_set_ne _ 1 0 _ (by decide),
    getD_set_self _ 0 29 (by simp)]

/-- Claim C6: `FirmwareUntouched` atomicity of the pre-upload phase.
`overwrite_module` returns `FirmwareUntouched(slot)` exactly when the
firmware file cannot be read, or splitting it on newline yields one or
fewer records, or the opcode-29 erase transfer itself fails; in the
file-unreadable and too-few-records cases no frame at all is transmitted,
and in every `FirmwareUntouched` case no opcode-39 data frame is ever
transmitted. -/
theorem claim_C6 (env : SpiEnv) (file : Option Str) (slot : Nat)
    (fw : FirmwareVersion) (fuel : Nat) :
    ((overwrite_module env file slot fw fuel).1 = .firmwareUntouched slot
      ↔ (file = none
         ∨ (∃ content, file = some content ∧ (splitOn 10 content).length ≤ 1)
         ∨ env 0 = none))
    ∧ ((file = none
         ∨ (∃ content, file = some content ∧ (splitOn 10 content).length ≤ 1))
        → (overwrite_module env file slot fw fuel).2 = [])
    ∧ ((overwrite_module env file slot fw fuel).1 = .firmwareUntouched slot
        → ∀ f ∈ (overwrite_module env file slot fw fuel).2,
            f.getD 0 0 ≠ 39) := by
  rcases file with _ | content
  · simp [overwrite_module]
  · by_cases hlen : (splitOn 10 content).length ≤ 1
    · simp [overwrite_module, hlen]
    · rcases henv : env 0 with _ | rxf
      · refine ⟨?_, ?_, ?_⟩
        · simp [overwrite_module, hlen, henv]
        · rintro (h | ⟨c, hc, hlc⟩)
          · exact absurd h (by simp)
          · obtain rfl := Option.some_inj.mp hc
            exact absurd hlc hlen
        · intro _ f hf
          simp only [overwrite_module, if_neg hlen, henv] at hf
          rw [List.mem_singleton.mp hf, eraseFrame_getD_zero]
          omega
      · rcases hrun : runLoop env (splitOn 10 content) fuel (initialState fw)
          with ⟨s, r⟩
        rcases r with _ | lr
        · simp [overwrite_module, hlen, henv, hrun]
        · cases lr <;> simp [overwrite_module, hlen, henv, hrun]

/-- Claim C6, witness: a single-record file (no newline) makes
`overwrite_module` fail with `FirmwareUntouched` without transmitting any
frame. -/
theorem claim_C6_witness :
    (overwrite_module (fun _ => some zeroBytes) (some recD0) 3 fwNew 5).1
      = .firmwareUntouched 3
    ∧ (overwrite_module (fun _ => some zeroBytes) (some recD0) 3 fwNew 5).2
      = [] := by
  have h := claim_C6 (fun _ => some zeroBytes) (some recD0) 3 fwNew 5
  exact ⟨h.1.mpr (Or.inr (Or.inl ⟨recD0, rfl, by decide⟩)),
    h.2.1 (Or.inr ⟨recD0, rfl, by decide⟩)⟩

/-! ## Order lemmas for the slice comparison -/

/-- `sliceLt` is irreflexive. -/
theorem sliceLt_irrefl : ∀ l : List Nat, sliceLt l l = false
  | [] => rfl
  | _ :: as => by simp [sliceLt, sliceLt_irrefl as]

/-- `sliceLt` is transitive. -/
theorem sliceLt_trans : ∀ a b c : List Nat,
    sliceLt a b = true → sliceLt b c = true → sliceLt a c = true
  | [], [], _, h1, _ => by simp [sliceLt] at h1
  | [], _ :: _, [], _, h2 => by simp [sliceLt] at h2
  | [], _ :: _, _ :: _, _, _ => rfl
  | _ :: _, [], _, h1, _ => by simp [sliceLt] at h1
  | _ :: _, _ :: _, [], _, h2 => by simp [sliceLt] at h2
  | a :: as, b :: bs, c :: cs, h1, h2 => by
    simp only [sliceLt] at h1 h2 ⊢
    rcases Nat.lt_trichotomy a b with hab | hab | hab
    · rcases Nat.lt_trichotomy b c with hbc | hbc | hbc
      · simp [Nat.lt_trans hab hbc]
      · subst hbc
        simp [hab]
      · simp [Nat.lt_asymm hbc, hbc] at h2
    · subst hab
      rcases Nat.lt_trichotomy a c with hac | hac | hac
      · simp [hac]
      · subst hac
        simp only [Nat.lt_irrefl, if_false] at h1 h2 ⊢
        exact sliceLt_trans as bs cs h1 h2
      · simp [Nat.lt_asymm hac, hac] at h2
    · simp [Nat.lt_asymm hab, hab] at h1

/-- If `a` is not below `b`, then `b` is below `a` or they are equal. -/
theorem sliceLt_connex : ∀ a b : List Nat,
    sliceLt a b = false → sliceLt b a = true ∨ b = a
  | [], [] => fun _ => Or.inr rfl
  | [], _ :: _ => by
    intro h
    simp [sliceLt] at h
  | _ :: _, [] => fun _ => Or.inl rfl
  | a :: as, b :: bs => by
    intro h
    simp only [sliceLt] at h ⊢
    rcases Nat.lt_trichotomy a b with hab | hab | hab
    · simp [hab] at h
    · subst hab
      simp only [Nat.lt_irrefl, if_false] at h ⊢
      rcases sliceLt_connex as bs h with h2 | h2
      · exact Or.inl h2
      · exact Or.inr (by rw [h2])
    · exact Or.inl (by simp [hab, Nat.lt_asymm hab])

/-- The reduced element is one of the inputs. -/
theorem foldMax_mem : ∀ (xs : List (Nat × List Nat)) (x : Nat × List Nat),
    xs.foldl maxStep x ∈ x :: xs
  | [], x => List.mem_singleton_self x
  | y :: t, x => by
    have ih := foldMax_mem t (maxStep x y)
    rcases List.mem_cons.mp ih with h | h
    · rw [List.foldl_cons, h]
      unfold maxStep
      split
      · exact List.mem_cons_of_mem _ (List.mem_cons_self _ _)
      · exact List.mem_cons_self _ _
    · exact List.mem_cons_of_mem _ (List.mem_cons_of_mem _ h)

/-- No input is strictly above the reduced element. -/
theorem foldMax_not_lt : ∀ (xs : List (Nat × List Nat)) (x : Nat × List Nat),
    ∀ q ∈ x :: xs, sliceLt (xs.foldl maxStep x).2 q.2 = false
  | [], x => by
    intro q hq
    rw [List.mem_singleton.mp hq]
    exact sliceLt_irrefl _
  | y :: t, x => by
    intro q hq
    rw [List.foldl_cons]
    have ih := foldMax_not_lt t (maxStep x y)
    by_cases hxy : sliceLt x.2 y.2 = true
    · have hms : maxStep x y = y := by simp [maxStep, hxy]
      rw [hms] at ih ⊢
      have hy := ih y (List.mem_cons_self _ _)
      have hx : sliceLt (t.foldl maxStep y).2 x.2 = false := by
        cases hbx : sliceLt (t.foldl maxStep y).2 x.2 with
        | false => rfl
        | true =>
          rw [sliceLt_trans _ _ _ hbx hxy] at hy
          exact absurd hy (by simp)
      rcases List.mem_cons.mp hq with h | h
      · rw [h]
        exact hx
      · rcases List.mem_cons.mp h with h2 | h2
        · rw [h2]
          exact hy
        · exact ih q (List.mem_cons_of_mem _ h2)
    · have hms : maxStep x y = x := by simp [maxStep, hxy]
      rw [hms] at ih ⊢
      have hx := ih x (List.mem_cons_self _ _)
      have hy : sliceLt (t.foldl maxStep x).2 y.2 = false := by
        rcases sliceLt_connex x.2 y.2 (Bool.not_eq_true _ |>.mp hxy)
          with hyx | hyx
        · cases hby : sliceLt (t.foldl maxStep x).2 y.2 with
          | false => rfl
          | true =>
            rw [sliceLt_trans _ _ _ hby hyx] at hx
            exact absurd hx (by simp)
        · rw [← hyx] at hx
          exact hx
      rcases List.mem_cons.mp hq with h | h
      · rw [h]
        exact hx
      · rcases List.mem_cons.mp h with h2 | h2
        · rw [h2]
          exact hy
        · exact ih q (List.mem_cons_of_mem _ h2)

/-- The two boolean filters of the selector chain accept an entry exactly
when it is an update candidate in the sense of the spec. -/
theorem candFilter_iff (m : FirmwareVersion) (p : Nat × FirmwareVersion) :
    (hwFilter m p = true ∧ swFilter m p = true) ↔ updateCandidate m p.2 := by
  simp only [hwFilter, swFilter, updateCandidate, Bool.and_eq_true,
    Bool.or_eq_true, bne_iff_ne, beq_iff_eq]
  tauto

/-- Membership in the filtered, enumerated candidate list. -/
theorem mem_swOk_iff (m : FirmwareVersion) (fs : List FirmwareVersion)
    (i : Nat) (g : FirmwareVersion) :
    (i, g) ∈ (fs.enum.filter (hwFilter m)).filter (swFilter m)
      ↔ (fs[i]? = some g ∧ updateCandidate m g) := by
  rw [List.mem_filter, List.mem_filter, and_assoc]
  constructor
  · rintro ⟨henum, hf⟩
    exact ⟨List.mem_enum_iff_getElem?.mp henum, (candFilter_iff m (i, g)).mp hf⟩
  · rintro ⟨hget, hcand⟩
    exact ⟨List.mem_enum_iff_getElem?.mpr hget, (candFilter_iff m (i, g)).mpr hcand⟩

/-- Claim C7: the update selector.  When `selectUpdate` returns an index,
the firmware at that index is an update candidate — hardware equal to the
module's, software not the sentinel `(255,255,255)`, software strictly
above the module's or module software equal to the sentinel — and its
software is maximal among all candidates in the set; the selector returns
`none` ("no update available", not an error) exactly when no candidate
exists — in particular the sentinel software is never chosen. -/
theorem claim_C7 (m : FirmwareVersion) (fs : List FirmwareVersion) :
    (∀ i, selectUpdate m fs = some i →
      ∃ f, fs[i]? = some f ∧ updateCandidate m f ∧
        ∀ g ∈ fs, updateCandidate m g →
          sliceLt f.get_software g.get_software = false)
    ∧ (selectUpdate m fs = none ↔ ∀ g ∈ fs, ¬ updateCandidate m g) := by
  have hsu : selectUpdate m fs =
      match ((fs.enum.filter (hwFilter m)).filter (swFilter m)).map
          (fun p => (p.1, p.2.get_software)) with
      | [] => none
      | x :: xs => some (xs.foldl maxStep x).1 := rfl
  constructor
  · intro i hsel
    rw [hsu] at hsel
    cases hmap : ((fs.enum.filter (hwFilter m)).filter (swFilter m)).map
        (fun p => (p.1, p.2.get_software)) with
    | nil =>
      rw [hmap] at hsel
      exact absurd hsel (by simp)
    | cons x xs =>
      rw [hmap] at hsel
      have hbest : (xs.foldl maxStep x).1 = i := Option.some_inj.mp hsel
      have hmem : xs.foldl maxStep x ∈ x :: xs := foldMax_mem xs x
      rw [← hmap] at hmem
      obtain ⟨p, hp, hpeq⟩ := List.mem_map.mp hmem
      obtain ⟨hget, hcand⟩ := (mem_swOk_iff m fs p.1 p.2).mp hp
      refine ⟨p.2, ?_, hcand, ?_⟩
      · rw [← hbest, ← hpeq]
        exact hget
      · intro g hg hcg
        obtain ⟨j, hj⟩ := List.mem_iff_getElem?.mp hg
        have hgmem : (j, g) ∈ (fs.enum.filter (hwFilter m)).filter
            (swFilter m) := (mem_swOk_iff m fs j g).mpr ⟨hj, hcg⟩
        have hgmap : (j, g.get_software) ∈ x :: xs := by
          rw [← hmap]
          exact List.mem_map.mpr ⟨(j, g), hgmem, rfl⟩
        have hnl := foldMax_not_lt xs x (j, g.get_software) hgmap
        rw [← hpeq] at hnl
        exact hnl
  · rw [hsu]
    cases hmap : ((fs.enum.filter (hwFilter m)).filter (swFilter m)).map
        (fun p => (p.1, p.2.get_software)) with
    | nil =>
      simp only [true_iff]
      intro g hg hcg
      obtain ⟨j, hj⟩ := List.mem_iff_getElem?.mp hg
      have hgmem : (j, g) ∈ (fs.enum.filter (hwFilter m)).filter (swFilter m) :=
        (mem_swOk_iff m fs j g).mpr ⟨hj, hcg⟩
      have hmm : (j, g.get_software)
          ∈ ((fs.enum.filter (hwFilter m)).filter (swFilter m)).map
            (fun p => (p.1, p.2.get_software)) :=
        List.mem_map.mpr ⟨(j, g), hgmem, rfl⟩
      rw [hmap] at hmm
      exact absurd hmm (List.not_mem_nil _)
    | cons x xs =>
      have hx : x ∈ ((fs.enum.filter (hwFilter m)).filter (swFilter m)).map
          (fun p => (p.1, p.2.get_software)) := by
        rw [hmap]
        exact List.mem_cons_self _ _
      obtain ⟨p, hp, _⟩ := List.mem_map.mp hx
      obtain ⟨hget, hcand⟩ := (mem_swOk_iff m fs p.1 p.2).mp hp
      constructor
      · intro h
        exact absurd h (by simp)
      · intro h
        exact absurd hcand (h p.2 (List.mem_iff_getElem?.mpr ⟨p.1, hget⟩))

/-- Claim C7, witness: for a module with hardware `(20,10,1,5)` and
software `(0,0,1)` and a set holding a matching upgrade `(0,0,9)`, a
sentinel entry, and a wrong-hardware entry, the selector picks index 0,
whose firmware is a maximal candidate. -/
theorem claim_C7_witness :
    ∃ f, [⟨[20, 10, 1, 5, 0, 0, 9]⟩, ⟨[20, 10, 1, 5, 255, 255, 255]⟩,
          (⟨[20, 10, 2, 5, 0, 0, 7]⟩ : FirmwareVersion)][(0 : Nat)]?
        = some f
      ∧ updateCandidate fwNew f
      ∧ ∀ g ∈ [⟨[20, 10, 1, 5, 0, 0, 9]⟩, ⟨[20, 10, 1, 5, 255, 255, 255]⟩,
               (⟨[20, 10, 2, 5, 0, 0, 7]⟩ : FirmwareVersion)],
          updateCandidate fwNew g →
            sliceLt f.get_software g.get_software = false := by
  exact (claim_C7 fwNew
    [⟨[20, 10, 1, 5, 0, 0, 9]⟩, ⟨[20, 10, 1, 5, 255, 255, 255]⟩,
     ⟨[20, 10, 2, 5, 0, 0, 7]⟩]).1 0 (by decide)

/-! ## Decimal round-trip lemmas (claim C9) -/

/-- Every byte of a decimal representation is an ASCII digit. -/
theorem decRep_digits (n : Nat) : ∀ c ∈ decRep n, 48 ≤ c ∧ c ≤ 57 := by
  induction n using Nat.strong_induction_on with
  | _ n ih =>
    rw [decRep]
    split
    · intro c hc
      rw [List.mem_singleton.mp hc]
      omega
    · intro c hc
      rcases List.mem_append.mp hc with h | h
      · exact ih (n / 10) (Nat.div_lt_self (by omega) (by omega)) c h
      · rw [List.mem_singleton.mp h]
        have := Nat.mod_lt n (show 0 < 10 by omega)
        omega

/-- A decimal representation is never empty. -/
theorem decRep_ne_nil (n : Nat) : decRep n ≠ [] := by
  rw [decRep]
  split
  · simp
  · simp

/-- Digit accumulation over an appended string. -/
theorem accumDigits_append (radix : Nat) (dv : Nat → Option Nat) :
    ∀ (s t : Str) (a : Nat),
      accumDigits radix dv (s ++ t) a
        = (accumDigits radix dv s a).bind (accumDigits radix dv t)
  | [], _, _ => rfl
  | c :: s, t, a => by
    simp only [List.cons_append, accumDigits]
    cases dv c with
    | none => rfl
    | some d => exact accumDigits_append radix dv s t _

/-- Accumulating the decimal representation of `n` from accumulator `a`
yields `a · 10^digits + n`. -/
theorem accum_decRep (n : Nat) : ∀ a : Nat,
    accumDigits 10 decDigitVal (decRep n) a
      = some (a * 10 ^ (decRep n).length + n) := by
  induction n using Nat.strong_induction_on with
  | _ n ih =>
    intro a
    rw [decRep]
    split
    · next h =>
      simp only [accumDigits, decDigitVal]
      rw [if_pos (by omega)]
      simp only [Option.some_bind, accumDigits, List.length_singleton, pow_one]
      congr 1
      omega
    · next h =>
      rw [accumDigits_append, ih (n / 10) (Nat.div_lt_self (by omega) (by omega))]
      simp only [Option.some_bind, accumDigits, decDigitVal]
      have hm := Nat.mod_lt n (show 0 < 10 by omega)
      rw [if_pos (by omega)]
      simp only [Option.some_bind, List.length_append, List.length_singleton]
      congr 1
      rw [pow_succ, ← mul_assoc]
      generalize a * 10 ^ (decRep (n / 10)).length = X
      omega

/-- `str::parse::<u8>()` inverts the decimal formatting, for byte values. -/
theorem u8_parse_decRep (n : Nat) (h : n ≤ 255) :
    u8_parse (decRep n) = some n := by
  have hstrip : stripSign (decRep n) = decRep n := by
    unfold stripSign
    cases hd : decRep n with
    | nil => simp
    | cons c r =>
      have hc := decRep_digits n c (by rw [hd]; exact List.mem_cons_self c r)
      rw [if_neg]
      simp only [List.head?_cons, Option.some_inj]
      omega
  unfold u8_parse
  rw [hstrip, if_neg (by simp [List.isEmpty_iff, decRep_ne_nil n]),
    accum_decRep n 0]
  simp only [Nat.zero_mul, Nat.zero_add, Option.some_bind]
  rw [if_pos h]

/-- Splitting a string that does not contain the separator. -/
theorem splitOn_not_mem (sep : Nat) :
    ∀ s : Str, sep ∉ s → splitOn sep s = [s]
  | [], _ => rfl
  | c :: rest, h => by
    have hc : ¬ c = sep := fun he => h (he ▸ List.mem_cons_self c rest)
    have hr : sep ∉ rest := fun hm => h (List.mem_cons_of_mem c hm)
    simp only [splitOn, if_neg hc, splitOn_not_mem sep rest hr]

/-- Splitting at the first separator occurrence. -/
theorem splitOn_append (sep : Nat) :
    ∀ (s t : Str), sep ∉ s →
      splitOn sep (s ++ sep :: t) = s :: splitOn sep t
  | [], t, _ => by simp [splitOn]
  | c :: rest, t, h => by
    have hc : ¬ c = sep := fun he => h (he ▸ List.mem_cons_self c rest)
    have hr : sep ∉ rest := fun hm => h (List.mem_cons_of_mem c hm)
    have hrec := splitOn_append sep rest t hr
    simp only [List.cons_append, splitOn, if_neg hc]
    rw [show splitOn sep (rest.append (sep :: t)) = rest :: splitOn sep t
      from hrec]

/-- Claim C9: `FirmwareVersion` round-trip.  For every firmware version —
any 7-tuple of byte values — parsing the filename produced by formatting it
yields the same version: `from_filename (as_filename v) = some v`. -/
theorem claim_C9 (v : FirmwareVersion) (h7 : v.firmware.length = 7)
    (hb : ∀ x ∈ v.firmware, x ≤ 255) :
    FirmwareVersion.from_filename (FirmwareVersion.as_filename v)
      = some v := by
  obtain ⟨a, b, c, d, e, f, g, hfw⟩ :
      ∃ a b c d e f g, v.firmware = [a, b, c, d, e, f, g] := by
    rcases hv : v.firmware with _ | ⟨a, _ | ⟨b, _ | ⟨c, _ |
      ⟨d, _ | ⟨e, _ | ⟨f, _ | ⟨g, _ | ⟨x, t⟩⟩⟩⟩⟩⟩⟩⟩ <;>
      first
        | exact ⟨a, b, c, d, e, f, g, rfl⟩
        | (rw [hv] at h7; simp at h7)
  have hstr : FirmwareVersion.as_string v =
      decRep a ++ 45 :: (decRep b ++ 45 :: (decRep c ++ 45 ::
        (decRep d ++ 45 :: (decRep e ++ 45 ::
          (decRep f ++ 45 :: decRep g))))) := by
    simp [FirmwareVersion.as_string, hfw]
  have hchars : ∀ x ∈ FirmwareVersion.as_string v,
      (48 ≤ x ∧ x ≤ 57) ∨ x = 45 := by
    rw [hstr]
    intro x hx
    simp only [List.mem_append, List.mem_cons] at hx
    rcases hx with h | h | h | h | h | h | h | h | h | h | h | h | h <;>
      first
        | exact Or.inl (decRep_digits _ x h)
        | exact Or.inr h
  have h46 : (46 : Nat) ∉ FirmwareVersion.as_string v := by
    intro hm
    rcases hchars 46 hm with ⟨h1, h2⟩ | h1 <;> omega
  have hnot45 : ∀ n : Nat, (45 : Nat) ∉ decRep n := by
    intro n hm
    have := decRep_digits n 45 hm
    omega
  have hsplit45 : splitOn 45 (FirmwareVersion.as_string v) =
      [decRep a, decRep b, decRep c, decRep d, decRep e, decRep f,
       decRep g] := by
    rw [hstr, splitOn_append 45 _ _ (hnot45 a),
      splitOn_append 45 _ _ (hnot45 b), splitOn_append 45 _ _ (hnot45 c),
      splitOn_append 45 _ _ (hnot45 d), splitOn_append 45 _ _ (hnot45 e),
      splitOn_append 45 _ _ (hnot45 f), splitOn_not_mem 45 _ (hnot45 g)]
  have hbnd : ∀ x ∈ [a, b, c, d, e, f, g], x ≤ 255 := by
    rw [← hfw]
    exact hb
  have hgo : from_filename_go
      [decRep a, decRep b, decRep c, decRep d, decRep e, decRep f,
       decRep g] 0 (List.replicate 7 0) = some [a, b, c, d, e, f, g] := by
    simp [from_filename_go,
      u8_parse_decRep a (hbnd a (by simp)),
      u8_parse_decRep b (hbnd b (by simp)),
      u8_parse_decRep c (hbnd c (by simp)),
      u8_parse_decRep d (hbnd d (by simp)),
      u8_parse_decRep e (hbnd e (by simp)),
      u8_parse_decRep f (hbnd f (by simp)),
      u8_parse_decRep g (hbnd g (by simp))]
  simp only [FirmwareVersion.from_filename, FirmwareVersion.as_filename]
  rw [splitOn_append 46 _ _ h46]
  simp only [List.head?_cons]
  rw [hsplit45, hgo, ← hfw]
  rfl

/-- Claim C9, witness: the round-trip at the concrete version
`20-10-1-5-0-0-1`. -/
theorem claim_C9_witness :
    FirmwareVersion.from_filename (FirmwareVersion.as_filename fwNew)
      = some fwNew :=
  claim_C9 fwNew (by decide) (by decide)

/-! ## Frame well-formedness (claim C8) -/

/-- The short-frame well-formedness invariant of the spec: byte 1 holds
`BM - 1 = 45` and byte 45 holds the 8-bit wrapping sum of bytes `0..45`. -/
def frameOk (f : Buf) : Prop :=
  f.getD 1 0 = BOOTMESSAGE_LENGTH - 1
  ∧ f.getD (BOOTMESSAGE_LENGTH - 1) 0
      = calculate_checksum f (BOOTMESSAGE_LENGTH - 1)

/-- Writing at or beyond position `n` does not change the first `n`
entries. -/
theorem take_set_of_le : ∀ (l : Buf) (i v n : Nat), n ≤ i →
    (l.set i v).take n = l.take n
  | [], _, _, _, _ => rfl
  | _ :: _, _, _, 0, _ => rfl
  | _ :: _, 0, _, n + 1, h => absurd h (by omega)
  | c :: t, i + 1, v, n + 1, _h => by
    simp only [List.set, List.take]
    rw [take_set_of_le t i v n (by omega)]

/-- Writing the checksum into byte 45 of a buffer whose byte 1 already
holds 45 yields a well-formed frame. -/
theorem frameOk_finalize (l : Buf) (h1 : l.getD 1 0 = BOOTMESSAGE_LENGTH - 1)
    (hlen : BOOTMESSAGE_LENGTH ≤ l.length) :
    frameOk (l.set (BOOTMESSAGE_LENGTH - 1)
      (calculate_checksum l (BOOTMESSAGE_LENGTH - 1))) := by
  constructor
  · rw [getD_set_ne _ _ _ _ (by decide)]
    exact h1
  · rw [getD_set_self _ _ _ (by
      simp only [BOOTMESSAGE_LENGTH] at hlen ⊢
      omega)]
    unfold calculate_checksum
    rw [take_set_of_le _ _ _ _ (by omega)]

/-- The opcode-49/19/9-style header frames are well formed. -/
theorem frameOk_header (tx : Buf) (op : Nat)
    (hlen : BOOTMESSAGE_LENGTH ≤ tx.length) :
    frameOk (
      let t := ((tx.set 0 op).set 1 (BOOTMESSAGE_LENGTH - 1)).set 2 op
      t.set (BOOTMESSAGE_LENGTH - 1)
        (calculate_checksum t (BOOTMESSAGE_LENGTH - 1))) := by
  apply frameOk_finalize
  · rw [getD_set_ne _ _ _ _ (by decide),
      getD_set_self _ _ _ (by simp; simp only [BOOTMESSAGE_LENGTH] at hlen; omega)]
  · simp only [List.length_set]
    exact hlen

/-- `buildStatusFrame` yields a well-formed frame. -/
theorem frameOk_buildStatusFrame (tx : Buf)
    (hlen : BOOTMESSAGE_LENGTH ≤ tx.length) :
    frameOk (buildStatusFrame tx) :=
  frameOk_header tx 49 hlen

/-- `buildEscapeFrame` yields a well-formed frame. -/
theorem frameOk_buildEscapeFrame (tx : Buf)
    (hlen : BOOTMESSAGE_LENGTH ≤ tx.length) :
    frameOk (buildEscapeFrame tx) :=
  frameOk_header tx 49 hlen

/-- `buildCancelFrame` yields a well-formed frame. -/
theorem frameOk_buildCancelFrame (tx : Buf)
    (hlen : BOOTMESSAGE_LENGTH ≤ tx.length) :
    frameOk (buildCancelFrame tx) :=
  frameOk_header tx 19 hlen

/-- The erase+commit frame is well formed, for every target version. -/
theorem frameOk_eraseFrame (fw : FirmwareVersion) :
    frameOk (eraseFrame fw) := by
  apply frameOk_finalize
  · rw [getD_set_ne _ _ _ _ (by decide), getD_set_ne _ _ _ _ (by decide),
      getD_set_ne _ _ _ _ (by decide), getD_set_ne _ _ _ _ (by decide),
      getD_set_self _ _ _ (by
        simp only [List.length_set, List.length_replicate]
        decide)]
  · simp only [List.length_set, List.length_replicate]
    decide

/-- The identity-request frame is well formed. -/
theorem frameOk_identityFrame : frameOk identityFrame := by
  unfold frameOk
  decide

/-- The erase frame is 47 bytes long. -/
theorem eraseFrame_length (fw : FirmwareVersion) :
    (eraseFrame fw).length = BOOTMESSAGE_LENGTH + 1 := by
  simp [eraseFrame]

/-- A successful `payloadWrites` preserves the buffer length and all
entries below the write pointer. -/
theorem payloadWrites_preserves : ∀ (k : Nat) (line : Str) (mp sbp : Nat)
    (tx tx' : Buf), payloadWrites line mp sbp tx k = some tx' →
    tx'.length = tx.length ∧ ∀ j, j < sbp → tx'.getD j 0 = tx.getD j 0
  | 0, line, mp, sbp, tx, tx', h => by
    simp only [payloadWrites] at h
    cases hp : parseHexAt line mp (mp + 2) with
    | none => rw [hp] at h; exact absurd h (by simp)
    | some b =>
      rw [hp] at h
      simp only [Option.some_bind, setChecked] at h
      split at h
      · obtain rfl := Option.some_inj.mp h
        exact ⟨by simp, fun j hj =>
          getD_set_ne _ _ _ _ (by omega)⟩
      · exact absurd h (by simp)
  | k + 1, line, mp, sbp, tx, tx', h => by
    simp only [payloadWrites] at h
    cases hp : parseHexAt line mp (mp + 2) with
    | none => rw [hp] at h; exact absurd h (by simp)
    | some b =>
      rw [hp] at h
      simp only [Option.some_bind, setChecked] at h
      split at h
      · simp only [Option.some_bind] at h
        obtain ⟨hlen, hpre⟩ := payloadWrites_preserves k line (mp + 2)
          (sbp + 1) _ tx' h
        refine ⟨by rw [hlen]; simp, fun j hj => ?_⟩
        rw [hpre j (by omega), getD_set_ne _ _ _ _ (by omega)]
      · exact absurd h (by simp)

/-- The data frame: after a successful payload copy into the buffer headed
by `dataHeader`, sealing with the checksum yields a well-formed frame of
unchanged length. -/
theorem frameOk_dataFrame (tx : Buf) (lineNumber mt ll : Nat) (line : Str)
    (tx2 : Buf) (hlen : tx.length = BOOTMESSAGE_LENGTH + 1)
    (hp : payloadLoop line ll (dataHeader tx lineNumber mt) = some tx2) :
    frameOk (tx2.set (BOOTMESSAGE_LENGTH - 1)
        (calculate_checksum tx2 (BOOTMESSAGE_LENGTH - 1)))
    ∧ tx2.length = BOOTMESSAGE_LENGTH + 1 := by
  obtain ⟨hl2, hpre⟩ := payloadWrites_preserves _ _ _ _ _ _ hp
  have hhlen : (dataHeader tx lineNumber mt).length = BOOTMESSAGE_LENGTH + 1 := by
    simp [dataHeader, hlen]
  have hh1 : (dataHeader tx lineNumber mt).getD 1 0 = BOOTMESSAGE_LENGTH - 1 := by
    unfold dataHeader
    rw [getD_set_ne _ _ _ _ (by decide), getD_set_ne _ _ _ _ (by decide),
      getD_set_ne _ _ _ _ (by decide), getD_set_ne _ _ _ _ (by decide),
      getD_set_self _ _ _ (by simp [hlen, BOOTMESSAGE_LENGTH])]
  have h1 : tx2.getD 1 0 = BOOTMESSAGE_LENGTH - 1 := by
    rw [hpre 1 (by omega), hh1]
  have hl : tx2.length = BOOTMESSAGE_LENGTH + 1 := by
    rw [hl2, hhlen]
  exact ⟨frameOk_finalize tx2 h1 (by omega), hl⟩

/-- The loop-state invariant of the upload engine: every frame transmitted
so far is well formed and the two transmit buffers have their fixed
sizes. -/
def stOk (s : St) : Prop :=
  (∀ f ∈ s.sent, frameOk f)
  ∧ s.txBuf.length = BOOTMESSAGE_LENGTH + 1
  ∧ s.txBufEscape.length = BOOTMESSAGE_LENGTH_CHECK

/-- Appending one well-formed frame to a well-formed trace. -/
theorem sentOk_append {l : List Buf} {t : Buf}
    (hl : ∀ f ∈ l, frameOk f) (ht : frameOk t) :
    ∀ f ∈ l ++ [t], frameOk f := by
  intro f hf
  rcases List.mem_append.mp hf with h | h
  · exact hl f h
  · rw [List.mem_singleton.mp h]
    exact ht

/-- `dataPhase` preserves the loop-state invariant. -/
theorem dataPhase_stOk (env : SpiEnv) (s : St) (mt ll : Nat) (line : Str)
    (hs : stOk s) : stOk (dataPhase env s mt ll line).st := by
  obtain ⟨hsent, htx, hesc⟩ := hs
  have hesc61 : BOOTMESSAGE_LENGTH ≤ s.txBufEscape.length := by
    rw [hesc]
    decide
  unfold dataPhase
  cases hp : payloadLoop line ll (dataHeader s.txBuf s.lineNumber mt) with
  | none => exact ⟨hsent, htx, hesc⟩
  | some tx2 =>
    obtain ⟨hok3, hl2⟩ := frameOk_dataFrame s.txBuf s.lineNumber mt ll line
      tx2 htx hp
    have hsent3 := sentOk_append hsent hok3
    have hl3 : (tx2.set (BOOTMESSAGE_LENGTH - 1)
        (calculate_checksum tx2 (BOOTMESSAGE_LENGTH - 1))).length
        = BOOTMESSAGE_LENGTH + 1 := by
      simp [hl2]
    have hescE : (buildEscapeFrame s.txBufEscape).length
        = BOOTMESSAGE_LENGTH_CHECK := by
      simp [buildEscapeFrame, hesc]
    have hsentE := sentOk_append hsent3 (frameOk_buildEscapeFrame _ hesc61)
    dsimp only
    cases henv : env s.idx with
    | none =>
      dsimp only
      repeat' split
      all_goals exact ⟨hsent3, hl3, hesc⟩
    | some rxf =>
      dsimp only
      repeat' split
      all_goals refine ⟨?_, ?_, ?_⟩
      all_goals
        first
          | exact hsent3
          | exact hsentE
          | exact hl3
          | exact hesc
          | exact hescE

/-- `loopStep` preserves the loop-state invariant. -/
theorem loopStep_stOk (env : SpiEnv) (lines : List Str) (s : St)
    (hs : stOk s) : stOk (loopStep env lines s).st := by
  obtain ⟨hsent, htx, hesc⟩ := hs
  have hprobe := frameOk_buildStatusFrame s.txBuf (by omega)
  have hsent2 := sentOk_append hsent hprobe
  have htx2 : (buildStatusFrame s.txBuf).length
      = BOOTMESSAGE_LENGTH + 1 := by
    simp [buildStatusFrame, htx]
  unfold loopStep
  cases lines.get? s.lineNumber with
  | none => exact ⟨hsent, htx, hesc⟩
  | some line =>
    dsimp only
    cases parseHexAt line 1 2 with
    | none => exact ⟨hsent, htx, hesc⟩
    | some mt =>
      dsimp only
      cases parseHexAt line 2 4 with
      | none => exact ⟨hsent, htx, hesc⟩
      | some ll =>
        dsimp only
        split
        · cases env s.idx with
          | some rxf =>
            dsimp only
            split
            · exact dataPhase_stOk env _ mt ll line ⟨hsent2, htx2, hesc⟩
            · exact ⟨hsent2, htx2, hesc⟩
          | none => exact ⟨hsent2, htx2, hesc⟩
        · exact dataPhase_stOk env _ mt ll line ⟨hsent, htx, hesc⟩

/-- `runLoop` preserves the loop-state invariant. -/
theorem runLoop_stOk (env : SpiEnv) (lines : List Str) :
    ∀ (fuel : Nat) (s : St), stOk s → stOk (runLoop env lines fuel s).1
  | 0, s, hs => hs
  | fuel + 1, s, hs => by
    unfold runLoop
    split
    · exact hs
    · cases hstep : loopStep env lines s with
      | next s2 =>
        have := loopStep_stOk env lines s hs
        rw [hstep] at this
        exact runLoop_stOk env lines fuel s2 this
      | corrupted s2 =>
        have := loopStep_stOk env lines s hs
        rw [hstep] at this
        exact this
      | panik s2 =>
        have := loopStep_stOk env lines s hs
        rw [hstep] at this
        exact this

/-- Claim C8: frame well-formedness invariant.  The identity-request frame
is well formed, and in every run of `overwrite_module` — any environment,
file, slot, target version and fuel — every frame handed to
`spidev.transfer` (erase+commit, data frames, status probes, the long-frame
probe header, cancel) has byte 1 equal to `BM - 1 = 45` and byte 45 equal
to the 8-bit wrapping sum of bytes `0..45`. -/
theorem claim_C8 :
    frameOk identityFrame
    ∧ ∀ (env : SpiEnv) (file : Option Str) (slot : Nat)
        (fw : FirmwareVersion) (fuel : Nat),
        ∀ f ∈ (overwrite_module env file slot fw fuel).2, frameOk f := by
  refine ⟨frameOk_identityFrame, ?_⟩
  intro env file slot fw fuel f hf
  rcases file with _ | content
  · exact absurd hf (List.not_mem_nil _)
  · by_cases hlen : (splitOn 10 content).length ≤ 1
    · simp only [overwrite_module, if_pos hlen] at hf
      exact absurd hf (List.not_mem_nil _)
    · cases henv : env 0 with
      | none =>
        simp only [overwrite_module, if_neg hlen, henv] at hf
        rw [List.mem_singleton.mp hf]
        exact frameOk_eraseFrame fw
      | some rxf =>
        have hinit : stOk (initialState fw) := by
          refine ⟨?_, ?_, ?_⟩
          · intro f2 hf2
            rw [List.mem_singleton.mp hf2]
            exact frameOk_eraseFrame fw
          · exact eraseFrame_length fw
          · rfl
        have hrun := runLoop_stOk env (splitOn 10 content) fuel
          (initialState fw) hinit
        rcases hloop : runLoop env (splitOn 10 content) fuel (initialState fw)
          with ⟨sf, r⟩
        rw [hloop] at hrun
        rcases r with _ | lr
        · simp only [overwrite_module, if_neg hlen, henv, hloop] at hf
          exact hrun.1 f hf
        · cases lr with
          | okDone =>
            simp only [overwrite_module, if_neg hlen, henv, hloop] at hf
            rcases List.mem_append.mp hf with h | h
            · exact hrun.1 f h
            · rw [List.mem_singleton.mp h]
              exact frameOk_buildCancelFrame _ (by
                rw [hrun.2.1]
                decide)
          | corruptedExit =>
            simp only [overwrite_module, if_neg hlen, henv, hloop] at hf
            exact hrun.1 f hf
          | panikExit =>
            simp only [overwrite_module, if_neg hlen, henv, hloop] at hf
            exact hrun.1 f hf

/-- Claim C8, witness: the concrete erase frame of a fuel-starved run is
well formed. -/
theorem claim_C8_witness : frameOk (eraseFrame fwNew) :=
  claim_C8.2 (fun _ => some zeroBytes) (some fileC1) 1 fwNew 0
    (eraseFrame fwNew) (by decide)

end FlashModule
